import Mathlib

/-!
Shallow embedding of the status-reconciliation engine of claude-deck
(package `session`, file `status.go`): title-indicator parsing, the tiered
session-to-window matcher `detectSessionStatus`, the reconciliation pass
`computeStatusesInternal` (normal and aggressive modes), the update applier
`ApplyStatusUpdates`, and the window-claim helper `ClaimWindowID`.

Go machine integers are modelled as `Int` (window ids) and `Nat`
(modification times); Go strings as Lean `String`; Go maps used as sets
(`matchedWindows`, `activeWindowIDs`) as `List Int`; the Go maps built by
the applier (`updateMap`, `claimedWindows`) as last-insertion-wins lookups
over the update list.  The kitty snapshot (`getKittyActiveSessions`, an I/O
boundary) and the per-session transcript modification times (`os.Stat`) are
parameters of the embedded functions.
-/

namespace ClaudeDeck

/-- `Status` from session.go: Idle | Waiting | Running. -/
inductive Status where
  | idle
  | waiting
  | running
deriving DecidableEq, Repr

/-- The fields of `Session` (session.go) read or written by the
reconciliation engine. -/
structure Session where
  Name : String := ""
  Renamed : Bool := false
  ProjectPath : String := ""
  ClaudeSessionID : String := ""
  KittyWindowID : Int := 0
  Status : Status := Status.idle
  JSONLPath : String := ""
deriving DecidableEq, Repr

/-- `activeSession` from status.go: one window of the kitty snapshot. -/
structure ActiveSession where
  windowID : Int := 0
  sessionID : String := ""
  projectPath : String := ""
  tabTitle : String := ""
  hasSpinner : Bool := false
deriving DecidableEq, Repr

/-- `StatusUpdate` from status.go. -/
structure StatusUpdate where
  SessionID : String := ""
  Status : ClaudeDeck.Status := ClaudeDeck.Status.idle
  OldStatus : ClaudeDeck.Status := ClaudeDeck.Status.idle
  Name : String := ""
  OldName : String := ""
  KittyWindowID : Int := 0
deriving DecidableEq, Repr

/-- The braille-pattern range U+2800..U+283F used as the spinner check
(`r >= '⠀' && r <= '⠿'`). -/
def isSpinnerChar (c : Char) : Bool :=
  '⠀' ≤ c && c ≤ '⠿'

/-- `hasClaudeIndicator` from status.go: first rune is `✳` or in the
braille range. -/
def hasClaudeIndicator (title : String) : Bool :=
  match title.data with
  | [] => false
  | c :: _ => c == '✳' || isSpinnerChar c

/-- `hasSpinnerIndicator` from status.go: first rune in the braille range. -/
def hasSpinnerIndicator (title : String) : Bool :=
  match title.data with
  | [] => false
  | c :: _ => isSpinnerChar c

/-- Go's `unicode.IsSpace` over the code points `strings.TrimSpace` trims. -/
def isGoSpace (c : Char) : Bool :=
  c == '\t' || c.val == 10 || c.val == 11 || c.val == 12 || c.val == 13 ||
  c == ' ' || c.val == 0x85 || c.val == 0xA0 ||
  c.val == 0x1680 || (0x2000 ≤ c.val && c.val ≤ 0x200A) ||
  c.val == 0x2028 || c.val == 0x2029 || c.val == 0x202F ||
  c.val == 0x205F || c.val == 0x3000

/-- `strings.TrimSpace`: drop leading and trailing whitespace runes. -/
def trimSpace (s : String) : String :=
  String.mk (((s.data.dropWhile isGoSpace).reverse.dropWhile isGoSpace).reverse)

/-- `cleanClaudeTitle` from status.go: remove one leading indicator rune if
present, then trim whitespace. -/
def cleanClaudeTitle (title : String) : String :=
  if title == "" then ""
  else
    let stripped :=
      match title.data with
      | [] => title
      | c :: rest => if c == '✳' || isSpinnerChar c then String.mk rest else title
    trimSpace stripped

/-- The path test of the working-directory tier and of
`FindWindowIDForSession`: the window cwd equals the project path or is a
`/`-delimited descendant of it (`strings.HasPrefix(cwd, projectPath+"/")`). -/
def pathMatches (windowCwd projectPath : String) : Bool :=
  windowCwd == projectPath || (projectPath ++ "/").isPrefixOf windowCwd

/-- Result quadruple of `detectSessionStatus`. -/
structure DetectResult where
  status : Status
  tabTitle : String
  windowID : Int
  strong : Bool
deriving DecidableEq, Repr

/-- Tier 1 of `detectSessionStatus`: scan for the first window whose id is
the session's stored `KittyWindowID`; on that window, a claimed window or a
non-empty explicit session id different from the session's is a miss
(`break` without claiming). -/
def tier1Find (s : Session) (matched : List Int) :
    List ActiveSession → Option ActiveSession
  | [] => none
  | a :: rest =>
    if a.windowID == s.KittyWindowID then
      if matched.contains a.windowID then none
      else if a.sessionID != "" && a.sessionID != s.ClaudeSessionID then none
      else some a
    else tier1Find s matched rest

/-- Tier 2 of `detectSessionStatus`: first unclaimed window whose explicit
`--resume` session id equals the session's id (claimed ones are skipped
with `continue`). -/
def tier2Find (s : Session) (matched : List Int) :
    List ActiveSession → Option ActiveSession
  | [] => none
  | a :: rest =>
    if a.sessionID != "" && a.sessionID == s.ClaudeSessionID
        && !(matched.contains a.windowID) then some a
    else tier2Find s matched rest

/-- Tier 3 of `detectSessionStatus`: first unclaimed window with no
explicit session id whose cwd is at or under the session's project path. -/
def tier3Find (s : Session) (matched : List Int) :
    List ActiveSession → Option ActiveSession
  | [] => none
  | a :: rest =>
    if a.sessionID == "" && !(matched.contains a.windowID)
        && pathMatches a.projectPath s.ProjectPath then some a
    else tier3Find s matched rest

/-- The common tail of `detectSessionStatus` once a window is matched:
spinner means Running, otherwise Waiting. -/
def matchedResult (strong : Bool) (a : ActiveSession) : DetectResult :=
  ⟨if a.hasSpinner then Status.running else Status.waiting,
   a.tabTitle, a.windowID, strong⟩

/-- `detectSessionStatus` from status.go.  The mutable `matchedWindows` map
is threaded explicitly: the second component of the result is the updated
claimed-window set. -/
def detectSessionStatus (s : Session) (activeSessions : List ActiveSession)
    (matchedWindows : List Int) : DetectResult × List Int :=
  match (if s.KittyWindowID > 0 then tier1Find s matchedWindows activeSessions
         else none) with
  | some a => (matchedResult true a, matchedWindows ++ [a.windowID])
  | none =>
    match tier2Find s matchedWindows activeSessions with
    | some a => (matchedResult true a, matchedWindows ++ [a.windowID])
    | none =>
      if s.JSONLPath != "" then
        match tier3Find s matchedWindows activeSessions with
        | some a => (matchedResult false a, matchedWindows ++ [a.windowID])
        | none => (⟨Status.idle, "", 0, false⟩, matchedWindows)
      else (⟨Status.idle, "", 0, false⟩, matchedWindows)

/-- The per-session update construction of `computeStatusesInternal`
(status.go lines 105-143): builds the `StatusUpdate` for one session from
the matcher's result, returning `(update, namesChangedHere,
anyChangedHere)`, the two booleans being this session's contribution to
the pass-wide `namesChanged` / `anyChanged` flags. -/
def mkUpdate (aggressive : Bool) (s : Session) (r : DetectResult) :
    StatusUpdate × Bool × Bool :=
  let update : StatusUpdate :=
    { SessionID := s.ClaudeSessionID, Status := r.status, OldStatus := s.Status,
      Name := "", OldName := s.Name, KittyWindowID := r.windowID }
  let anyChanged := r.status != s.Status
  let p :=
    if (r.strong || aggressive) && r.windowID != s.KittyWindowID then
      (update, true)
    else if !r.strong && !aggressive then
      ({ update with KittyWindowID := s.KittyWindowID }, anyChanged)
    else (update, anyChanged)
  if (r.strong || aggressive) && r.tabTitle != "" && !s.Renamed then
    let cleanTitle := cleanClaudeTitle r.tabTitle
    if cleanTitle != "" && cleanTitle != s.Name then
      ({ p.1 with Name := cleanTitle }, true, true)
    else (p.1, false, p.2)
  else (p.1, false, p.2)

/-- The main loop of `computeStatusesInternal`: process the (sorted)
sessions in order, threading the claimed-window set and accumulating the
`namesChanged` / `anyChanged` flags. -/
def computeLoop (aggressive : Bool) (activeSessions : List ActiveSession) :
    List Session → List Int → List StatusUpdate × List Int × Bool × Bool
  | [], matched => ([], matched, false, false)
  | s :: rest, matched =>
    let d := detectSessionStatus s activeSessions matched
    let u := mkUpdate aggressive s d.1
    let t := computeLoop aggressive activeSessions rest d.2
    (u.1 :: t.1, t.2.1, u.2.1 || t.2.2.1, u.2.2 || t.2.2.2)

/-- One pass of the inner `j` loop of the sort in `computeStatusesInternal`:
walk the tail with the current pivot, swapping the pivot out whenever a
strictly more recent mtime is found; returns the final pivot and the tail
with swapped-out pivots left in place. -/
def selectMax (x : Session × Nat) :
    List (Session × Nat) → (Session × Nat) × List (Session × Nat)
  | [] => (x, [])
  | y :: ys =>
    if x.2 < y.2 then
      let p := selectMax y ys
      (p.1, x :: p.2)
    else
      let p := selectMax x ys
      (p.1, y :: p.2)

/-- The double-loop sort of `computeStatusesInternal` (mtime descending,
`time.After` as strict `>` on the modelled mtimes), recursing on the list
length as fuel. -/
def goSortAux : Nat → List (Session × Nat) → List (Session × Nat)
  | 0, _ => []
  | _, [] => []
  | fuel + 1, x :: xs =>
    let p := selectMax x xs
    p.1 :: goSortAux fuel p.2

/-- The sessions-by-mtime sort of `computeStatusesInternal`; each session
is paired with the modelled modification time of its transcript. -/
def goSortMtime (l : List (Session × Nat)) : List (Session × Nat) :=
  goSortAux l.length l

/-- `computeStatusesInternal` from status.go.  The kitty snapshot and the
transcript mtimes are parameters (they come from I/O in the source).
Returns `(updates, activeWindowIDs, namesChanged, anyChanged)`. -/
def computeStatusesInternal (sessions : List (Session × Nat))
    (activeSessions : List ActiveSession) (aggressive : Bool) :
    List StatusUpdate × List Int × Bool × Bool :=
  let activeWindowIDs := activeSessions.map (·.windowID)
  let sorted := (goSortMtime sessions).map (·.1)
  let t := computeLoop aggressive activeSessions sorted []
  (t.1, activeWindowIDs, t.2.2.1, t.2.2.2)

/-- `ComputeStatuses` from status.go: the non-aggressive pass. -/
def ComputeStatuses (sessions : List (Session × Nat))
    (activeSessions : List ActiveSession) :
    List StatusUpdate × List Int × Bool × Bool :=
  computeStatusesInternal sessions activeSessions false

/-- `ComputeStatusesAggressive` from status.go: the aggressive pass. -/
def ComputeStatusesAggressive (sessions : List (Session × Nat))
    (activeSessions : List ActiveSession) :
    List StatusUpdate × List Int × Bool × Bool :=
  computeStatusesInternal sessions activeSessions true

/-- The `updateMap` lookup of `ApplyStatusUpdates`: a Go map written in
list order, so the last update with the given session id wins. -/
def lookupUpdate (updates : List StatusUpdate) (sid : String) :
    Option StatusUpdate :=
  updates.reverse.find? (fun u => u.SessionID == sid)

/-- The `claimedWindows` map of `ApplyStatusUpdates`: last update with a
positive `KittyWindowID` equal to the queried handle wins; yields the
claiming session id. -/
def claimedWindowsLookup (updates : List StatusUpdate) (windowID : Int) :
    Option String :=
  ((updates.filter (fun u => u.KittyWindowID > 0)).reverse.find?
    (fun u => u.KittyWindowID == windowID)).map (·.SessionID)

/-- The per-session body of `ApplyStatusUpdates`: apply the session's
update if present, otherwise clear a stale stored handle that another
session's update now claims.  Returns `(new session, changedHere,
needsSaveHere)`. -/
def applyOne (updates : List StatusUpdate) (s : Session) :
    Session × Bool × Bool :=
  match lookupUpdate updates s.ClaudeSessionID with
  | some u =>
    let p := if s.Status != u.Status
      then ({ s with Status := u.Status }, true) else (s, false)
    let q := if u.Name != "" && p.1.Name != u.Name
      then ({ p.1 with Name := u.Name }, true, true) else (p.1, p.2, false)
    if u.KittyWindowID != q.1.KittyWindowID then
      ({ q.1 with KittyWindowID := u.KittyWindowID }, true, true)
    else (q.1, q.2.1, q.2.2)
  | none =>
    if s.KittyWindowID > 0 then
      match claimedWindowsLookup updates s.KittyWindowID with
      | some claimer =>
        if claimer != s.ClaudeSessionID then
          ({ s with KittyWindowID := 0 }, true, true)
        else (s, false, false)
      | none => (s, false, false)
    else (s, false, false)

/-- The session loop of `ApplyStatusUpdates`, accumulating the `changed`
and `needsSave` flags. -/
def applyLoop (updates : List StatusUpdate) :
    List Session → List Session × Bool × Bool
  | [] => ([], false, false)
  | s :: rest =>
    let p := applyOne updates s
    let t := applyLoop updates rest
    (p.1 :: t.1, p.2.1 || t.2.1, p.2.2 || t.2.2)

/-- `ApplyStatusUpdates` from status.go.  In-place mutation of the session
records is modelled by returning the new session list; result is
`(sessions, changed, needsSave)`. -/
def ApplyStatusUpdates (sessions : List Session)
    (updates : List StatusUpdate) : List Session × Bool × Bool :=
  applyLoop updates sessions

/-- The clearing loop of `ClaimWindowID`: every session other than the
claiming one (identified by its position `ci`, modelling Go's pointer
identity test) that stores the claimed handle is cleared to 0; the boolean
reports whether any such session was modified. -/
def clearOthersLoop (windowID : Int) (ci : Nat) :
    Nat → List Session → List Session × Bool
  | _, [] => ([], false)
  | i, s :: rest =>
    let t := clearOthersLoop windowID ci (i + 1) rest
    if i == ci then (s :: t.1, t.2)
    else if s.KittyWindowID == windowID then
      ({ s with KittyWindowID := 0 } :: t.1, true)
    else (s :: t.1, t.2)

/-- The final assignment of `ClaimWindowID`: set the claiming session's
handle. -/
def setHandleAt (windowID : Int) (ci : Nat) :
    Nat → List Session → List Session
  | _, [] => []
  | i, s :: rest =>
    if i == ci then
      { s with KittyWindowID := windowID } :: setHandleAt windowID ci (i + 1) rest
    else s :: setHandleAt windowID ci (i + 1) rest

/-- `ClaimWindowID` from status.go, with the claiming session given by its
position `ci` in the list (Go compares pointers `s == claimingSession`).
Returns the new session list and the `modified` flag. -/
def ClaimWindowID (sessions : List Session) (ci : Nat) (windowID : Int) :
    List Session × Bool :=
  if windowID ≤ 0 then (sessions, false)
  else
    let p := clearOthersLoop windowID ci 0 sessions
    (setHandleAt windowID ci 0 p.1, p.2)

/-! ### Supporting lemmas: trimming -/

/-- The list-level trim used by `trimSpace`. -/
def trimL (p : α → Bool) (l : List α) : List α :=
  ((l.dropWhile p).reverse.dropWhile p).reverse

lemma dropWhile_dropWhile (p : α → Bool) (l : List α) :
    (l.dropWhile p).dropWhile p = l.dropWhile p := by
  induction l with
  | nil => rfl
  | cons a l ih =>
    cases h : p a <;> simp [List.dropWhile_cons, h, ih]

lemma head?_dropWhile_false (p : α → Bool) (l : List α) :
    ∀ x, (l.dropWhile p).head? = some x → p x = false := by
  induction l with
  | nil => intro x hx; simp [List.dropWhile] at hx
  | cons a l ih =>
    intro x hx
    rw [List.dropWhile_cons] at hx
    cases h : p a
    · rw [h] at hx
      simp at hx
      rw [← hx]; exact h
    · rw [h] at hx
      simp at hx
      exact ih x hx

lemma dropWhile_of_head_false (p : α → Bool) (l : List α)
    (h : ∀ x, l.head? = some x → p x = false) : l.dropWhile p = l := by
  cases l with
  | nil => rfl
  | cons a l => simp [List.dropWhile_cons, h a rfl]

lemma getLast?_dropWhile (p : α → Bool) (l : List α) :
    l.dropWhile p = [] ∨ (l.dropWhile p).getLast? = l.getLast? := by
  induction l with
  | nil => left; rfl
  | cons a l ih =>
    cases h : p a
    · right
      simp [List.dropWhile_cons, h]
    · rw [List.dropWhile_cons, h, if_pos rfl]
      rcases ih with h1 | h1
      · left; exact h1
      · cases l with
        | nil => left; rfl
        | cons b l' =>
          right
          rw [h1]
          exact (List.getLast?_cons_cons).symm

lemma dropWhile_trimL (p : α → Bool) (l : List α) :
    (trimL p l).dropWhile p = trimL p l := by
  apply dropWhile_of_head_false
  intro x hx
  unfold trimL at hx
  rw [List.head?_reverse] at hx
  rcases getLast?_dropWhile p (l.dropWhile p).reverse with h1 | h1
  · rw [h1] at hx; simp at hx
  · rw [h1, List.getLast?_reverse] at hx
    exact head?_dropWhile_false p l x hx

lemma trimL_idem (p : α → Bool) (l : List α) :
    trimL p (trimL p l) = trimL p l := by
  show (((trimL p l).dropWhile p).reverse.dropWhile p).reverse = trimL p l
  rw [dropWhile_trimL]
  show ((((l.dropWhile p).reverse.dropWhile p).reverse).reverse.dropWhile p).reverse
    = trimL p l
  rw [List.reverse_reverse, dropWhile_dropWhile]
  rfl

lemma trimSpace_data (s : String) :
    (trimSpace s).data = trimL isGoSpace s.data := rfl

lemma trimSpace_idem (s : String) : trimSpace (trimSpace s) = trimSpace s := by
  apply String.ext
  rw [trimSpace_data, trimSpace_data, trimL_idem]

lemma clean_eq_trim (t : String) : ∃ u, cleanClaudeTitle t = trimSpace u := by
  unfold cleanClaudeTitle
  by_cases h : t == ""
  · refine ⟨"", ?_⟩
    simp only [h, if_pos]
    rfl
  · simp only [h, Bool.false_eq_true, if_neg, if_false]
    cases hd : t.data with
    | nil => exact ⟨t, rfl⟩
    | cons c rest =>
      cases hc : (c == '✳' || isSpinnerChar c) <;> simp only [hc, if_true, if_false]
      · exact ⟨t, rfl⟩
      · exact ⟨String.mk rest, rfl⟩

lemma clean_of_no_indicator (s : String) (h : hasClaudeIndicator s = false) :
    cleanClaudeTitle s = trimSpace s := by
  unfold cleanClaudeTitle
  by_cases he : s = ""
  · subst he
    rfl
  · have h1 : (s == "") = false := beq_eq_false_iff_ne.mpr he
    simp only [h1, Bool.false_eq_true, if_false]
    cases hd : s.data with
    | nil => rfl
    | cons c rest =>
      simp only [hasClaudeIndicator, hd] at h
      simp only [hd, h, Bool.false_eq_true, if_false]

/-- C3 counterexample: a title with two leading indicator characters is not
a fixed point of a second stripping pass. -/
theorem cleanClaudeTitle_not_idempotent :
    cleanClaudeTitle (cleanClaudeTitle "✳✳a") ≠ cleanClaudeTitle "✳✳a" := by
  decide

/-- C3 (amended): title cleaning is idempotent on every string whose
cleaned form does not itself begin with an indicator character (one
stripping pass removes at most one leading indicator, so a title with two
leading indicators is stripped again by the second pass). -/
theorem cleanClaudeTitle_idempotent_when_clean_unindicated (t : String)
    (h : hasClaudeIndicator (cleanClaudeTitle t) = false) :
    cleanClaudeTitle (cleanClaudeTitle t) = cleanClaudeTitle t := by
  obtain ⟨u, hu⟩ := clean_eq_trim t
  rw [clean_of_no_indicator (cleanClaudeTitle t) h, hu, trimSpace_idem]

/-- C3 witness: the amended idempotence theorem applied to a concrete
title carrying one spinner indicator. -/
theorem cleanClaudeTitle_idem_witness :
    hasClaudeIndicator (cleanClaudeTitle "⠂ building") = false ∧
    cleanClaudeTitle (cleanClaudeTitle "⠂ building") = cleanClaudeTitle "⠂ building" :=
  ⟨by decide, cleanClaudeTitle_idempotent_when_clean_unindicated "⠂ building" (by decide)⟩

/-! ### Supporting lemmas: the claim helper -/

lemma clearOthersLoop_get? (w : Int) (ci : Nat) (l : List Session) :
    ∀ (k i : Nat),
      ((clearOthersLoop w ci k l).1).get? i =
        (l.get? i).map (fun s =>
          if k + i = ci then s
          else if s.KittyWindowID == w then { s with KittyWindowID := 0 }
          else s) := by
  induction l with
  | nil => intro k i; simp [clearOthersLoop]
  | cons s rest ih =>
    intro k i
    cases i with
    | zero =>
      simp only [clearOthersLoop, Nat.add_zero, List.get?_cons_zero]
      split
      next hk =>
        have hk' : k = ci := by simpa using hk
        simp [hk']
      next hk =>
        have hk' : ¬ k = ci := by simpa using hk
        split
        next hs =>
          have hs' : s.KittyWindowID = w := by simpa using hs
          simp [hk', hs']
        next hs =>
          have hs' : ¬ s.KittyWindowID = w := by simpa using hs
          simp [hk', hs']
    | succ j =>
      have tail1 : ((clearOthersLoop w ci k (s :: rest)).1).get? (j + 1) =
          ((clearOthersLoop w ci (k + 1) rest).1).get? j := by
        simp only [clearOthersLoop]
        split
        · simp
        · split <;> simp
      rw [tail1, ih (k + 1) j, List.get?_cons_succ]
      have harith : k + 1 + j = k + (j + 1) := by omega
      rw [harith]

lemma clearOthersLoop_flag (w : Int) (ci : Nat) (l : List Session) :
    ∀ k, ((clearOthersLoop w ci k l).2 = true ↔
      ∃ i s, k + i ≠ ci ∧ l.get? i = some s ∧ s.KittyWindowID = w) := by
  induction l with
  | nil => intro k; simp [clearOthersLoop]
  | cons s rest ih =>
    intro k
    simp only [clearOthersLoop]
    split
    next hk =>
      have hk' : k = ci := by simpa using hk
      rw [ih (k + 1)]
      constructor
      · rintro ⟨j, s', hj1, hj2, hj3⟩
        exact ⟨j + 1, s', by omega, by simpa using hj2, hj3⟩
      · rintro ⟨i, s', hi1, hi2, hi3⟩
        cases i with
        | zero => omega
        | succ j =>
          exact ⟨j, s', by omega, by simpa using hi2, hi3⟩
    next hk =>
      have hk' : ¬ k = ci := by simpa using hk
      split
      next hs =>
        have hs' : s.KittyWindowID = w := by simpa using hs
        simp only [true_iff]
        exact ⟨0, s, by omega, rfl, hs'⟩
      next hs =>
        have hs' : ¬ s.KittyWindowID = w := by simpa using hs
        rw [ih (k + 1)]
        constructor
        · rintro ⟨j, s', hj1, hj2, hj3⟩
          exact ⟨j + 1, s', by omega, by simpa using hj2, hj3⟩
        · rintro ⟨i, s', hi1, hi2, hi3⟩
          cases i with
          | zero =>
            simp only [List.get?_cons_zero, Option.some_inj] at hi2
            exact absurd (hi2 ▸ hi3) hs'
          | succ j =>
            exact ⟨j, s', by omega, by simpa using hi2, hi3⟩

lemma setHandleAt_get? (w : Int) (ci : Nat) (l : List Session) :
    ∀ (k i : Nat),
      (setHandleAt w ci k l).get? i =
        (l.get? i).map (fun s =>
          if k + i = ci then { s with KittyWindowID := w } else s) := by
  induction l with
  | nil => intro k i; simp [setHandleAt]
  | cons s rest ih =>
    intro k i
    cases i with
    | zero =>
      simp only [setHandleAt, Nat.add_zero, List.get?_cons_zero]
      split
      next hk =>
        have hk' : k = ci := by simpa using hk
        simp [hk']
      next hk =>
        have hk' : ¬ k = ci := by simpa using hk
        simp [hk']
    | succ j =>
      have tail1 : (setHandleAt w ci k (s :: rest)).get? (j + 1) =
          (setHandleAt w ci (k + 1) rest).get? j := by
        simp only [setHandleAt]
        split <;> simp
      rw [tail1, ih (k + 1) j, List.get?_cons_succ]
      have harith : k + 1 + j = k + (j + 1) := by omega
      rw [harith]

/-- C9: `ClaimWindowID` is a no-op returning false for a non-positive
handle; for a positive handle it clears the handle from every other
session that stored it, sets the claiming session's handle, and returns
true exactly when some other session was cleared. -/
theorem claimWindowID_spec (sessions : List Session) (ci : Nat) (windowID : Int) :
    (windowID ≤ 0 → ClaimWindowID sessions ci windowID = (sessions, false)) ∧
    (0 < windowID →
      (∀ i, i ≠ ci →
        ((ClaimWindowID sessions ci windowID).1.get? i =
          (sessions.get? i).map (fun s =>
            if s.KittyWindowID == windowID then { s with KittyWindowID := 0 }
            else s))) ∧
      ((ClaimWindowID sessions ci windowID).1.get? ci =
        (sessions.get? ci).map (fun s => { s with KittyWindowID := windowID })) ∧
      ((ClaimWindowID sessions ci windowID).2 = true ↔
        ∃ i s, i ≠ ci ∧ sessions.get? i = some s ∧ s.KittyWindowID = windowID)) := by
  constructor
  · intro h
    simp [ClaimWindowID, h]
  · intro h
    have hn : ¬ windowID ≤ 0 := by omega
    refine ⟨?_, ?_, ?_⟩
    · intro i hi
      simp only [ClaimWindowID, if_neg hn]
      rw [setHandleAt_get?, clearOthersLoop_get?]
      cases hgi : sessions.get? i <;> simp [Nat.zero_add, hi]
    · simp only [ClaimWindowID, if_neg hn]
      rw [setHandleAt_get?, clearOthersLoop_get?]
      cases hgi : sessions.get? ci <;> simp [Nat.zero_add]
    · simp only [ClaimWindowID, if_neg hn]
      rw [clearOthersLoop_flag]
      constructor
      · rintro ⟨i, s, h1, h2, h3⟩
        exact ⟨i, s, by omega, h2, h3⟩
      · rintro ⟨i, s, h1, h2, h3⟩
        exact ⟨i, s, by omega, h2, h3⟩

/-- C9 witness: the spec theorem applied to the Scenario 5 instance
(session A holds 42, session B claims it) and to a zero handle. -/
theorem claimWindowID_spec_witness :
    (ClaimWindowID [{ ClaudeSessionID := "A", KittyWindowID := 42 },
        { ClaudeSessionID := "B" }] 1 0 =
      ([{ ClaudeSessionID := "A", KittyWindowID := 42 },
        { ClaudeSessionID := "B" }], false)) ∧
    ((ClaimWindowID [{ ClaudeSessionID := "A", KittyWindowID := 42 },
        { ClaudeSessionID := "B" }] 1 42).1.get? 0 =
      some { ClaudeSessionID := "A", KittyWindowID := 0 }) ∧
    ((ClaimWindowID [{ ClaudeSessionID := "A", KittyWindowID := 42 },
        { ClaudeSessionID := "B" }] 1 42).2 = true) :=
  ⟨(claimWindowID_spec _ 1 0).1 (by decide),
   by
    rw [((claimWindowID_spec [{ ClaudeSessionID := "A", KittyWindowID := 42 },
        { ClaudeSessionID := "B" }] 1 42).2 (by decide)).1 0 (by decide)]
    decide,
   (((claimWindowID_spec [{ ClaudeSessionID := "A", KittyWindowID := 42 },
        { ClaudeSessionID := "B" }] 1 42).2 (by decide)).2.2).mpr
     ⟨0, { ClaudeSessionID := "A", KittyWindowID := 42 }, by decide, by decide, by decide⟩⟩

/-! ### Supporting lemmas: the update applier -/

lemma applyLoop_spec (updates : List StatusUpdate) (l : List Session) :
    applyLoop updates l =
      (l.map (fun s => (applyOne updates s).1),
       l.any (fun s => (applyOne updates s).2.1),
       l.any (fun s => (applyOne updates s).2.2)) := by
  induction l with
  | nil => rfl
  | cons s rest ih => simp [applyLoop, ih, List.any_cons]

/-- C8: a session with no update this pass whose positive stored handle the
claims map assigns to a different session id is cleared to handle 0, and
both the `changed` and `needsSave` flags of the pass are true. -/
theorem apply_clears_stale_handle (sessions : List Session)
    (updates : List StatusUpdate) (i : Nat) (s : Session) (c : String)
    (hget : sessions.get? i = some s)
    (hnoupd : lookupUpdate updates s.ClaudeSessionID = none)
    (hpos : 0 < s.KittyWindowID)
    (hclaim : claimedWindowsLookup updates s.KittyWindowID = some c)
    (hdiff : c ≠ s.ClaudeSessionID) :
    (ApplyStatusUpdates sessions updates).1.get? i =
      some { s with KittyWindowID := 0 } ∧
    (ApplyStatusUpdates sessions updates).2.1 = true ∧
    (ApplyStatusUpdates sessions updates).2.2 = true := by
  have hmem : s ∈ sessions := List.get?_mem hget
  have happ : applyOne updates s = ({ s with KittyWindowID := 0 }, true, true) := by
    unfold applyOne
    rw [hnoupd]
    rw [if_pos hpos, hclaim]
    have hb : (c != s.ClaudeSessionID) = true := by simpa using hdiff
    simp [hb]
  unfold ApplyStatusUpdates
  rw [applyLoop_spec]
  refine ⟨?_, ?_, ?_⟩
  · simp only [List.get?_map, hget, Option.map_some', happ]
  · simp only [List.any_eq_true]
    exact ⟨s, hmem, by rw [happ]⟩
  · simp only [List.any_eq_true]
    exact ⟨s, hmem, by rw [happ]⟩

/-- C8 witness: session A stores handle 5 with no update of its own while
session B's update claims handle 5; after applying, A's handle is 0 and
both flags are true. -/
theorem apply_clears_stale_handle_witness :
    (ApplyStatusUpdates [{ ClaudeSessionID := "a", KittyWindowID := 5 }]
        [{ SessionID := "b", KittyWindowID := 5 }]).1.get? 0 =
      some { ClaudeSessionID := "a", KittyWindowID := 0 } ∧
    (ApplyStatusUpdates [{ ClaudeSessionID := "a", KittyWindowID := 5 }]
        [{ SessionID := "b", KittyWindowID := 5 }]).2.1 = true ∧
    (ApplyStatusUpdates [{ ClaudeSessionID := "a", KittyWindowID := 5 }]
        [{ SessionID := "b", KittyWindowID := 5 }]).2.2 = true :=
  apply_clears_stale_handle
    [{ ClaudeSessionID := "a", KittyWindowID := 5 }]
    [{ SessionID := "b", KittyWindowID := 5 }] 0
    { ClaudeSessionID := "a", KittyWindowID := 5 } "b"
    (by decide) (by decide) (by decide) (by decide) (by decide)

/-- C7: an update built from a non-strong (working-directory-only or
no-match) result in non-aggressive mode has an empty `Name` and keeps the
session's previously stored `KittyWindowID`; in aggressive mode the update
takes the matcher's window id, and (for an unrenamed session) a non-empty
cleaned title differing from the current name is propagated as the new
name. -/
theorem weak_match_update_policy (s : Session) (r : DetectResult) :
    (r.strong = false →
      (mkUpdate false s r).1.Name = "" ∧
      (mkUpdate false s r).1.KittyWindowID = s.KittyWindowID) ∧
    ((mkUpdate true s r).1.KittyWindowID = r.windowID) ∧
    (s.Renamed = false → r.tabTitle ≠ "" →
      cleanClaudeTitle r.tabTitle ≠ "" → cleanClaudeTitle r.tabTitle ≠ s.Name →
      (mkUpdate true s r).1.Name = cleanClaudeTitle r.tabTitle) := by
  refine ⟨?_, ?_, ?_⟩
  · intro hs
    simp [mkUpdate, hs]
  · simp only [mkUpdate, Bool.or_true, Bool.true_and, Bool.and_true,
      Bool.not_true, Bool.and_false]
    split <;> (try split) <;> (try split) <;> simp_all
  · intro hr ht hc hn
    have ht' : (r.tabTitle != "") = true := by simpa using ht
    have hc' : (cleanClaudeTitle r.tabTitle != "") = true := by simpa using hc
    have hn' : (cleanClaudeTitle r.tabTitle != s.Name) = true := by simpa using hn
    simp only [mkUpdate, hr, ht', hc', hn', Bool.or_true, Bool.true_and,
      Bool.not_false, Bool.and_true, Bool.and_self, if_true]

/-- C7 witness: the policy theorem applied to a weak match carrying title
"t" against a session storing handle 7 and named "n". -/
theorem weak_match_update_policy_witness :
    ((mkUpdate false { Name := "n", KittyWindowID := 7 }
        ⟨Status.waiting, "t", 3, false⟩).1.Name = "" ∧
     (mkUpdate false { Name := "n", KittyWindowID := 7 }
        ⟨Status.waiting, "t", 3, false⟩).1.KittyWindowID = 7) ∧
    (mkUpdate true { Name := "n", KittyWindowID := 7 }
        ⟨Status.waiting, "t", 3, false⟩).1.KittyWindowID = 3 ∧
    (mkUpdate true { Name := "n", KittyWindowID := 7 }
        ⟨Status.waiting, "t", 3, false⟩).1.Name = cleanClaudeTitle "t" :=
  ⟨(weak_match_update_policy { Name := "n", KittyWindowID := 7 }
      ⟨Status.waiting, "t", 3, false⟩).1 rfl,
   (weak_match_update_policy { Name := "n", KittyWindowID := 7 }
      ⟨Status.waiting, "t", 3, false⟩).2.1,
   (weak_match_update_policy { Name := "n", KittyWindowID := 7 }
      ⟨Status.waiting, "t", 3, false⟩).2.2 rfl (by decide) (by decide) (by decide)⟩

/-! ### Supporting lemmas: the tiered matcher -/

lemma tier1Find_none_of_first_miss (s : Session) (matched : List Int)
    (actives : List ActiveSession) (a : ActiveSession)
    (hfind : actives.find? (fun x => x.windowID == s.KittyWindowID) = some a)
    (hmiss : matched.contains a.windowID = true ∨
      (a.sessionID ≠ "" ∧ a.sessionID ≠ s.ClaudeSessionID)) :
    tier1Find s matched actives = none := by
  induction actives with
  | nil => simp at hfind
  | cons b rest ih =>
    cases hb : (b.windowID == s.KittyWindowID)
    · rw [List.find?_cons, hb] at hfind
      unfold tier1Find
      rw [hb]
      exact ih hfind
    · rw [List.find?_cons, hb] at hfind
      have hba : b = a := by simpa using hfind
      subst hba
      unfold tier1Find
      rw [hb]
      cases hc : matched.contains b.windowID
      · rcases hmiss with hm | ⟨hm1, hm2⟩
        · rw [hm] at hc; cases hc
        · have hm1' : (b.sessionID != "") = true := by simpa using hm1
          have hm2' : (b.sessionID != s.ClaudeSessionID) = true := by simpa using hm2
          simp [hc, hm1', hm2']
      · simp [hc]

lemma tier2Find_congr (s s' : Session)
    (h : s.ClaudeSessionID = s'.ClaudeSessionID) (matched : List Int) :
    ∀ actives, tier2Find s matched actives = tier2Find s' matched actives := by
  intro actives
  induction actives with
  | nil => rfl
  | cons a rest ih => simp only [tier2Find, h, ih]

lemma tier3Find_congr (s s' : Session)
    (h : s.ProjectPath = s'.ProjectPath) (matched : List Int) :
    ∀ actives, tier3Find s matched actives = tier3Find s' matched actives := by
  intro actives
  induction actives with
  | nil => rfl
  | cons a rest ih => simp only [tier3Find, h, ih]

lemma tier3Find_eq_find? (s : Session) (matched : List Int)
    (actives : List ActiveSession) :
    tier3Find s matched actives =
      actives.find? (fun a => a.sessionID == "" && !(matched.contains a.windowID)
        && pathMatches a.projectPath s.ProjectPath) := by
  induction actives with
  | nil => rfl
  | cons a rest ih =>
    cases hp : (a.sessionID == "" && !(matched.contains a.windowID)
        && pathMatches a.projectPath s.ProjectPath)
    · rw [List.find?_cons, hp]
      unfold tier3Find
      rw [hp]
      simpa using ih
    · rw [List.find?_cons, hp]
      unfold tier3Find
      rw [hp]
      simp

/-- C5: when the first window carrying the session's positive stored
handle is already claimed this pass or bears a different non-empty
explicit session id, the stored-handle tier misses without claiming and
the matcher behaves exactly as if the session stored no handle; if the
later tiers miss too, the result is `(Idle, "", 0, false)` with the
claimed-window set untouched. -/
theorem detect_stored_handle_miss (s : Session) (actives : List ActiveSession)
    (matched : List Int) (a : ActiveSession)
    (hpos : s.KittyWindowID > 0)
    (hfind : actives.find? (fun x => x.windowID == s.KittyWindowID) = some a)
    (hmiss : matched.contains a.windowID = true ∨
      (a.sessionID ≠ "" ∧ a.sessionID ≠ s.ClaudeSessionID)) :
    detectSessionStatus s actives matched =
      detectSessionStatus { s with KittyWindowID := 0 } actives matched ∧
    (tier2Find s matched actives = none →
      (s.JSONLPath = "" ∨ tier3Find s matched actives = none) →
      detectSessionStatus s actives matched =
        (⟨Status.idle, "", 0, false⟩, matched)) := by
  have h1 : tier1Find s matched actives = none :=
    tier1Find_none_of_first_miss s matched actives a hfind hmiss
  constructor
  · simp only [detectSessionStatus, if_pos hpos, h1]
    have hg : ¬ ((0 : Int) > 0) := by omega
    simp only [Session.KittyWindowID, if_neg hg]
    rw [tier2Find_congr s { s with KittyWindowID := 0 } rfl matched actives,
      tier3Find_congr s { s with KittyWindowID := 0 } rfl matched actives]
  · intro h2 h3
    simp only [detectSessionStatus, if_pos hpos, h1, h2]
    rcases h3 with h3 | h3
    · have hj : (s.JSONLPath != "") = false := by simpa using h3
      simp [hj]
    · cases hj : (s.JSONLPath != "") <;> simp [hj, h3]

/-- C5 witness: Scenario 3 — a session storing handle 7 whose window now
carries the explicit session id "xyz" of a different session falls through
every tier and resolves to Idle with handle 0. -/
theorem detect_stored_handle_miss_witness :
    detectSessionStatus
        { ClaudeSessionID := "abc", KittyWindowID := 7, ProjectPath := "/q",
          JSONLPath := "j" }
        [{ windowID := 7, sessionID := "xyz", projectPath := "/p",
           tabTitle := "t" }] [] =
      (⟨Status.idle, "", 0, false⟩, []) :=
  (detect_stored_handle_miss
      { ClaudeSessionID := "abc", KittyWindowID := 7, ProjectPath := "/q",
        JSONLPath := "j" }
      [{ windowID := 7, sessionID := "xyz", projectPath := "/p",
         tabTitle := "t" }] []
      { windowID := 7, sessionID := "xyz", projectPath := "/p",
        tabTitle := "t" }
      (by decide) (by decide) (Or.inr ⟨by decide, by decide⟩)).2
    (by decide) (Or.inr (by decide))

/-- C2 counterexample: a session with an empty transcript path never runs
the working-directory tier, even though an unclaimed window with no
explicit session id sits exactly at the session's project path (the first
qualifying window, as `tier3Find` shows). -/
theorem detect_skips_tier3_without_transcript :
    detectSessionStatus { ClaudeSessionID := "c", ProjectPath := "/p" }
        [{ windowID := 3, projectPath := "/p", tabTitle := "t" }] [] =
      (⟨Status.idle, "", 0, false⟩, []) ∧
    tier3Find { ClaudeSessionID := "c", ProjectPath := "/p" } []
        [{ windowID := 3, projectPath := "/p", tabTitle := "t" }] =
      some { windowID := 3, projectPath := "/p", tabTitle := "t" } := by
  decide

/-- C2 (amended): for a session with a non-empty transcript path that
fails the stored-handle and explicit-session-id tiers, the
working-directory tier weak-matches (strong = false) the first unclaimed
window having no explicit session id whose working directory equals the
session's project path or is a `/`-delimited descendant of it. -/
theorem detect_tier3_first_path_match (s : Session)
    (actives : List ActiveSession) (matched : List Int) (a : ActiveSession)
    (hjsonl : s.JSONLPath ≠ "")
    (h1 : (if s.KittyWindowID > 0 then tier1Find s matched actives else none)
      = none)
    (h2 : tier2Find s matched actives = none)
    (h3 : actives.find? (fun w => w.sessionID == ""
        && !(matched.contains w.windowID)
        && pathMatches w.projectPath s.ProjectPath) = some a) :
    detectSessionStatus s actives matched =
      (⟨if a.hasSpinner then Status.running else Status.waiting,
        a.tabTitle, a.windowID, false⟩, matched ++ [a.windowID]) := by
  have h3' : tier3Find s matched actives = some a := by
    rw [tier3Find_eq_find?]; exact h3
  have hj : (s.JSONLPath != "") = true := by simpa using hjsonl
  simp only [detectSessionStatus, h1, h2, h3', hj, if_true, matchedResult]

/-- C2 witness: the amended tier-3 theorem applied to a session with
transcript path "j" and one unclaimed window at its project path. -/
theorem detect_tier3_first_path_match_witness :
    detectSessionStatus
        { ClaudeSessionID := "c", ProjectPath := "/p", JSONLPath := "j" }
        [{ windowID := 3, projectPath := "/p", tabTitle := "t" }] [] =
      (⟨Status.waiting, "t", 3, false⟩, [3]) := by
  have h := detect_tier3_first_path_match
    { ClaudeSessionID := "c", ProjectPath := "/p", JSONLPath := "j" }
    [{ windowID := 3, projectPath := "/p", tabTitle := "t" }] []
    { windowID := 3, projectPath := "/p", tabTitle := "t" }
    (by decide) (by decide) (by decide) (by decide)
  simpa using h

lemma tier1Find_mem (s : Session) (matched : List Int) :
    ∀ (actives : List ActiveSession) (a : ActiveSession),
      tier1Find s matched actives = some a → a ∈ actives := by
  intro actives
  induction actives with
  | nil => intro a h; simp [tier1Find] at h
  | cons b rest ih =>
    intro a h
    unfold tier1Find at h
    split at h
    · split at h
      · exact absurd h (by simp)
      · split at h
        · exact absurd h (by simp)
        · have hba : b = a := by simpa using h
          exact hba ▸ List.mem_cons_self b rest
    · exact List.mem_cons_of_mem b (ih a h)

lemma tier2Find_mem (s : Session) (matched : List Int) :
    ∀ (actives : List ActiveSession) (a : ActiveSession),
      tier2Find s matched actives = some a → a ∈ actives := by
  intro actives
  induction actives with
  | nil => intro a h; simp [tier2Find] at h
  | cons b rest ih =>
    intro a h
    unfold tier2Find at h
    split at h
    · have hba : b = a := by simpa using h
      exact hba ▸ List.mem_cons_self b rest
    · exact List.mem_cons_of_mem b (ih a h)

lemma tier3Find_mem (s : Session) (matched : List Int) :
    ∀ (actives : List ActiveSession) (a : ActiveSession),
      tier3Find s matched actives = some a → a ∈ actives := by
  intro actives
  induction actives with
  | nil => intro a h; simp [tier3Find] at h
  | cons b rest ih =>
    intro a h
    unfold tier3Find at h
    split at h
    · have hba : b = a := by simpa using h
      exact hba ▸ List.mem_cons_self b rest
    · exact List.mem_cons_of_mem b (ih a h)

/-- C4: for a well-formed snapshot (each window's `hasSpinner` field is the
spinner check of its title, as the provider computes it), the matcher
either returns exactly `(Idle, "", 0, false)` on a miss, or it matched a
window of the snapshot and returns Running precisely when that window's
title carries the busy (spinner) indicator and Waiting otherwise — a
matched window is never Idle. -/
theorem detect_status_spec (s : Session) (actives : List ActiveSession)
    (matched : List Int)
    (hwf : ∀ a ∈ actives, a.hasSpinner = hasSpinnerIndicator a.tabTitle) :
    detectSessionStatus s actives matched
      = (⟨Status.idle, "", 0, false⟩, matched) ∨
    ∃ a ∈ actives, ∃ strong,
      detectSessionStatus s actives matched =
        (⟨if hasSpinnerIndicator a.tabTitle then Status.running
          else Status.waiting, a.tabTitle, a.windowID, strong⟩,
         matched ++ [a.windowID]) := by
  cases h1 : (if s.KittyWindowID > 0 then tier1Find s matched actives
      else none) with
  | some a =>
    have ht : tier1Find s matched actives = some a := by
      by_cases hg : s.KittyWindowID > 0
      · rwa [if_pos hg] at h1
      · rw [if_neg hg] at h1; exact absurd h1 (by simp)
    have ha : a ∈ actives := tier1Find_mem s matched actives a ht
    right
    refine ⟨a, ha, true, ?_⟩
    simp only [detectSessionStatus, h1, matchedResult, hwf a ha]
  | none =>
    cases h2 : tier2Find s matched actives with
    | some a =>
      have ha : a ∈ actives := tier2Find_mem s matched actives a h2
      right
      refine ⟨a, ha, true, ?_⟩
      simp only [detectSessionStatus, h1, h2, matchedResult, hwf a ha]
    | none =>
      cases hj : (s.JSONLPath != "")
      · left
        simp [detectSessionStatus, h1, h2, hj]
      · cases h3 : tier3Find s matched actives with
        | some a =>
          have ha : a ∈ actives := tier3Find_mem s matched actives a h3
          right
          refine ⟨a, ha, false, ?_⟩
          simp only [detectSessionStatus, h1, h2, h3, hj, if_true,
            matchedResult, hwf a ha]
        | none =>
          left
          simp [detectSessionStatus, h1, h2, h3, hj]

/-- C4 witness: the status-derivation theorem at a session facing an empty
snapshot, where the no-match branch yields exactly `(Idle, "", 0, false)`. -/
theorem detect_status_spec_witness :
    detectSessionStatus { ClaudeSessionID := "w" } [] [] =
      (⟨Status.idle, "", 0, false⟩, []) :=
  (detect_status_spec { ClaudeSessionID := "w" } [] [] (by simp)).resolve_right
    (by simp)

/-! ### Supporting lemmas: the reconciliation pass -/

lemma selectMax_mem (x : Session × Nat) (l : List (Session × Nat)) :
    (selectMax x l).1 ∈ x :: l := by
  induction l generalizing x with
  | nil => simp [selectMax]
  | cons y ys ih =>
    unfold selectMax
    split
    · have h := ih y
      rcases List.mem_cons.mp h with h | h
      · simp [h]
      · simp [List.mem_cons_of_mem, h]
    · have h := ih x
      rcases List.mem_cons.mp h with h | h
      · simp [h]
      · simp [List.mem_cons_of_mem, h]

lemma selectMax_sub (x : Session × Nat) (l : List (Session × Nat)) :
    ∀ z ∈ (selectMax x l).2, z ∈ x :: l := by
  induction l generalizing x with
  | nil => simp [selectMax]
  | cons y ys ih =>
    intro z hz
    unfold selectMax at hz
    split at hz
    · simp only [List.mem_cons] at hz
      rcases hz with hz | hz
      · simp [hz]
      · have := ih y z hz
        rcases List.mem_cons.mp this with h | h
        · simp [h]
        · simp [List.mem_cons_of_mem, h]
    · simp only [List.mem_cons] at hz
      rcases hz with hz | hz
      · simp [hz]
      · have := ih x z hz
        rcases List.mem_cons.mp this with h | h
        · simp [h]
        · simp [List.mem_cons_of_mem, h]

lemma goSortAux_sub :
    ∀ (fuel : Nat) (l : List (Session × Nat)) (z : Session × Nat),
      z ∈ goSortAux fuel l → z ∈ l := by
  intro fuel
  induction fuel with
  | zero => intro l z h; simp [goSortAux] at h
  | succ n ih =>
    intro l z h
    cases l with
    | nil => simp [goSortAux] at h
    | cons x xs =>
      unfold goSortAux at h
      rcases List.mem_cons.mp h with h | h
      · exact h ▸ selectMax_mem x xs
      · exact selectMax_sub x xs z (ih _ z h)

lemma computeLoop_updates_shape (aggressive : Bool)
    (acts : List ActiveSession) :
    ∀ (l : List Session) (matched : List Int),
      ∀ u ∈ (computeLoop aggressive acts l matched).1,
        ∃ s ∈ l, ∃ r, u = (mkUpdate aggressive s r).1 := by
  intro l
  induction l with
  | nil => intro matched u hu; simp [computeLoop] at hu
  | cons s rest ih =>
    intro matched u hu
    unfold computeLoop at hu
    rcases List.mem_cons.mp hu with hu | hu
    · exact ⟨s, List.mem_cons_self s rest,
        (detectSessionStatus s acts matched).1, hu⟩
    · obtain ⟨s', hs', r, hr⟩ :=
        ih (detectSessionStatus s acts matched).2 u hu
      exact ⟨s', List.mem_cons_of_mem s hs', r, hr⟩

lemma mkUpdate_SessionID (aggressive : Bool) (s : Session) (r : DetectResult) :
    (mkUpdate aggressive s r).1.SessionID = s.ClaudeSessionID := by
  simp only [mkUpdate]
  split <;> (try split) <;> (try split) <;> (try split) <;> rfl

lemma mkUpdate_renamed_name (aggressive : Bool) (s : Session) (r : DetectResult)
    (h : s.Renamed = true) :
    (mkUpdate aggressive s r).1.Name = "" := by
  simp only [mkUpdate, h, Bool.not_true, Bool.and_false, Bool.false_eq_true,
    if_false]
  split <;> (try split) <;> rfl

/-- C6: if every session carrying a given session id has its name locked
(`Renamed = true`), then no update produced for that id by a
reconciliation pass — in either mode — carries a non-empty `Name`. -/
theorem renamed_sessions_never_renamed (sessions : List (Session × Nat))
    (actives : List ActiveSession) (aggressive : Bool) (sid : String)
    (hlock : ∀ p ∈ sessions, (p.1).ClaudeSessionID = sid →
      (p.1).Renamed = true) :
    ∀ u ∈ (computeStatusesInternal sessions actives aggressive).1,
      u.SessionID = sid → u.Name = "" := by
  intro u hu hsid
  have hu' : u ∈ (computeLoop aggressive actives
      ((goSortMtime sessions).map (·.1)) []).1 := hu
  obtain ⟨s, hs, r, hr⟩ :=
    computeLoop_updates_shape aggressive actives _ [] u hu'
  subst hr
  rw [mkUpdate_SessionID] at hsid
  obtain ⟨p, hp, hps⟩ := List.mem_map.mp hs
  have hpmem : p ∈ sessions := goSortAux_sub sessions.length sessions p hp
  have hren : s.Renamed = true := by
    have := hlock p hpmem (by rw [hps]; exact hsid)
    rw [hps] at this
    exact this
  exact mkUpdate_renamed_name aggressive s r hren

/-- C6 witness: a single locked session named by id "x" gets an update
with an empty `Name` in an aggressive pass. -/
theorem renamed_sessions_never_renamed_witness :
    ({ SessionID := "x" } : StatusUpdate) ∈
      (computeStatusesInternal [({ ClaudeSessionID := "x", Renamed := true }, 0)]
        [] true).1 ∧
    ({ SessionID := "x" } : StatusUpdate).Name = "" :=
  ⟨by decide,
   renamed_sessions_never_renamed
     [({ ClaudeSessionID := "x", Renamed := true }, 0)] [] true "x"
     (by decide) { SessionID := "x" } (by decide) (by decide)⟩

/-! ### Supporting lemmas: exclusivity of window claims -/

lemma contains_false_iff (l : List Int) (x : Int) :
    l.contains x = false ↔ x ∉ l := by
  induction l with
  | nil => simp
  | cons a l ih =>
    simp only [List.contains_cons, Bool.or_eq_false_iff, ih,
      beq_eq_false_iff_ne, List.mem_cons, not_or]

lemma tier1Find_fresh (s : Session) (matched : List Int) :
    ∀ (actives : List ActiveSession) (a : ActiveSession),
      tier1Find s matched actives = some a →
        matched.contains a.windowID = false := by
  intro actives
  induction actives with
  | nil => intro a h; simp [tier1Find] at h
  | cons b rest ih =>
    intro a h
    unfold tier1Find at h
    split at h
    · split at h
      next hc => exact absurd h (by simp)
      next hc =>
        split at h
        · exact absurd h (by simp)
        · have hba : b = a := by simpa using h
          subst hba
          exact Bool.eq_false_iff.mpr hc
    · exact ih a h

lemma tier2Find_fresh (s : Session) (matched : List Int) :
    ∀ (actives : List ActiveSession) (a : ActiveSession),
      tier2Find s matched actives = some a →
        matched.contains a.windowID = false := by
  intro actives
  induction actives with
  | nil => intro a h; simp [tier2Find] at h
  | cons b rest ih =>
    intro a h
    unfold tier2Find at h
    split at h
    next hc =>
      have hba : b = a := by simpa using h
      subst hba
      simp only [Bool.and_eq_true, Bool.not_eq_true'] at hc
      exact hc.2
    · exact ih a h

lemma tier3Find_fresh (s : Session) (matched : List Int) :
    ∀ (actives : List ActiveSession) (a : ActiveSession),
      tier3Find s matched actives = some a →
        matched.contains a.windowID = false := by
  intro actives
  induction actives with
  | nil => intro a h; simp [tier3Find] at h
  | cons b rest ih =>
    intro a h
    unfold tier3Find at h
    split at h
    next hc =>
      have hba : b = a := by simpa using h
      subst hba
      simp only [Bool.and_eq_true, Bool.not_eq_true'] at hc
      exact hc.1.2
    · exact ih a h

/-- The matcher either misses (result `(Idle, "", 0, false)`, claimed set
untouched) or claims a previously unclaimed window id, appending it to the
claimed set. -/
lemma detect_claim (s : Session) (acts : List ActiveSession)
    (matched : List Int) :
    ((detectSessionStatus s acts matched).2 = matched ∧
      (detectSessionStatus s acts matched).1.windowID = 0) ∨
    ((detectSessionStatus s acts matched).2 =
        matched ++ [(detectSessionStatus s acts matched).1.windowID] ∧
      matched.contains (detectSessionStatus s acts matched).1.windowID
        = false) := by
  cases h1 : (if s.KittyWindowID > 0 then tier1Find s matched acts
      else none) with
  | some a =>
    have ht : tier1Find s matched acts = some a := by
      by_cases hg : s.KittyWindowID > 0
      · rwa [if_pos hg] at h1
      · rw [if_neg hg] at h1; exact absurd h1 (by simp)
    right
    simp only [detectSessionStatus, h1, matchedResult]
    exact ⟨trivial, tier1Find_fresh s matched acts a ht⟩
  | none =>
    cases h2 : tier2Find s matched acts with
    | some a =>
      right
      simp only [detectSessionStatus, h1, h2, matchedResult]
      exact ⟨trivial, tier2Find_fresh s matched acts a h2⟩
    | none =>
      cases hj : (s.JSONLPath != "")
      · left
        simp [detectSessionStatus, h1, h2, hj]
      · cases h3 : tier3Find s matched acts with
        | some a =>
          right
          simp only [detectSessionStatus, h1, h2, h3, hj, if_true,
            matchedResult]
          exact ⟨trivial, tier3Find_fresh s matched acts a h3⟩
        | none =>
          left
          simp [detectSessionStatus, h1, h2, h3, hj]

lemma mkUpdate_true_handle (s : Session) (r : DetectResult) :
    (mkUpdate true s r).1.KittyWindowID = r.windowID := by
  simp only [mkUpdate, Bool.or_true, Bool.true_and, Bool.and_true,
    Bool.not_true, Bool.and_false]
  split <;> (try split) <;> (try split) <;> simp_all

lemma computeLoop_handles_fresh (acts : List ActiveSession) :
    ∀ (l : List Session) (matched : List Int),
      ∀ u ∈ (computeLoop true acts l matched).1,
        u.KittyWindowID ≠ 0 → u.KittyWindowID ∉ matched := by
  intro l
  induction l with
  | nil => intro matched u hu; simp [computeLoop] at hu
  | cons s rest ih =>
    intro matched u hu hnz
    unfold computeLoop at hu
    rcases List.mem_cons.mp hu with hu | hu
    · have hK : u.KittyWindowID =
          (detectSessionStatus s acts matched).1.windowID := by
        rw [hu, mkUpdate_true_handle]
      rcases detect_claim s acts matched with ⟨_, h0⟩ | ⟨_, hfresh⟩
      · exact absurd (hK.trans h0) hnz
      · rw [hK]
        exact (contains_false_iff _ _).mp hfresh
    · have h2 := ih (detectSessionStatus s acts matched).2 u hu hnz
      rcases detect_claim s acts matched with ⟨heq, _⟩ | ⟨heq, _⟩
      · rwa [heq] at h2
      · rw [heq] at h2
        exact fun hmem => h2 (List.mem_append_left _ hmem)

lemma computeLoop_pairwise (acts : List ActiveSession) :
    ∀ (l : List Session) (matched : List Int),
      ((computeLoop true acts l matched).1).Pairwise
        (fun u v => u.KittyWindowID = 0 ∨ v.KittyWindowID = 0 ∨
          u.KittyWindowID ≠ v.KittyWindowID) := by
  intro l
  induction l with
  | nil => intro matched; simp [computeLoop]
  | cons s rest ih =>
    intro matched
    show ((mkUpdate true s (detectSessionStatus s acts matched).1).1 ::
        (computeLoop true acts rest
          (detectSessionStatus s acts matched).2).1).Pairwise _
    refine List.pairwise_cons.mpr ⟨?_, ih _⟩
    intro v hv
    by_cases h0 :
        (mkUpdate true s (detectSessionStatus s acts matched).1).1.KittyWindowID
          = 0
    · exact Or.inl h0
    by_cases hv0 : v.KittyWindowID = 0
    · exact Or.inr (Or.inl hv0)
    refine Or.inr (Or.inr ?_)
    have hvfresh : v.KittyWindowID ∉ (detectSessionStatus s acts matched).2 :=
      computeLoop_handles_fresh acts rest _ v hv hv0
    have hK : (mkUpdate true s
        (detectSessionStatus s acts matched).1).1.KittyWindowID =
        (detectSessionStatus s acts matched).1.windowID :=
      mkUpdate_true_handle s (detectSessionStatus s acts matched).1
    rcases detect_claim s acts matched with ⟨_, hz⟩ | ⟨heq, _⟩
    · exact absurd (hK.trans hz) h0
    · rw [heq] at hvfresh
      intro hcontra
      apply hvfresh
      refine List.mem_append_right _ ?_
      rw [← hcontra, hK]
      exact List.mem_singleton.mpr rfl

/-- C1 (amended): in an aggressive reconciliation pass, no two
`StatusUpdate`s in the result carry the same non-zero window handle; in a
non-aggressive pass the guarantee holds only for the handles of newly
matched (strong) windows, because updates of weakly matched or unmatched
sessions carry the session's previously stored handle over unchanged and
those carried-over handles may repeat. -/
theorem aggressive_updates_handle_exclusive (sessions : List (Session × Nat))
    (actives : List ActiveSession) :
    ((ComputeStatusesAggressive sessions actives).1).Pairwise
      (fun u v => u.KittyWindowID = 0 ∨ v.KittyWindowID = 0 ∨
        u.KittyWindowID ≠ v.KittyWindowID) := by
  show ((computeLoop true actives
      ((goSortMtime sessions).map (fun p => p.1)) []).1).Pairwise _
  exact computeLoop_pairwise actives _ []

/-- C1 counterexample: in a non-aggressive pass over two sessions that
both store handle 5, against an empty snapshot, both resulting updates
carry the non-zero handle 5. -/
theorem computeStatuses_duplicate_handle_counterexample :
    ¬ (((ComputeStatuses [({ ClaudeSessionID := "a", KittyWindowID := 5 }, 0),
          ({ ClaudeSessionID := "b", KittyWindowID := 5 }, 0)] []).1).Pairwise
        (fun u v => u.KittyWindowID = 0 ∨ v.KittyWindowID = 0 ∨
          u.KittyWindowID ≠ v.KittyWindowID)) := by
  intro h
  have hl : (ComputeStatuses [({ ClaudeSessionID := "a", KittyWindowID := 5 }, 0),
      ({ ClaudeSessionID := "b", KittyWindowID := 5 }, 0)] []).1 =
      [{ SessionID := "a", KittyWindowID := 5 },
       { SessionID := "b", KittyWindowID := 5 }] := by decide
  rw [hl] at h
  have h2 := (List.pairwise_cons.mp h).1 { SessionID := "b", KittyWindowID := 5 }
    (by simp)
  rcases h2 with h2 | h2 | h2
  · exact absurd h2 (by decide)
  · exact absurd h2 (by decide)
  · exact h2 rfl

end ClaudeDeck
